import Mathlib

/-!
Verification development for the Silence_Remover backend
(`src/backend/remsi_integration.py`, `src/backend/video_processor.py`,
`src/backend/main.py`).

Times are modelled by `ℚ`: the Python code only ever parses, copies and
compares timestamps (no arithmetic on them), so exact rationals are a
faithful stand-in for the Python floats appearing in the source.
Subprocess calls, the whisper model and the database are modelled by
explicit outcome/environment records, and each external invocation is
traced as an `Event` so that "stage X was (not) invoked" is expressible.
-/

namespace SilenceRemover

/-- Decidable equality for `Except` results, used to evaluate parser
outcomes on concrete traces. -/
instance exceptDecEq {ε α : Type} [DecidableEq ε] [DecidableEq α] :
    DecidableEq (Except ε α) := fun x y =>
  match x, y with
  | .error a, .error b =>
    if h : a = b then .isTrue (by rw [h]) else .isFalse (by simp [h])
  | .ok a, .ok b =>
    if h : a = b then .isTrue (by rw [h]) else .isFalse (by simp [h])
  | .error _, .ok _ => .isFalse (by simp)
  | .ok _, .error _ => .isFalse (by simp)

/-! ## Character-level parsing helpers

The two `_parse_silence_output` methods work on the textual trace of
ffmpeg's `silencedetect` filter.  We model lines as `List Char`. -/

/-- Characters matched by the regex character class `[\d.]`. -/
def digitOrDot (c : Char) : Bool := c.isDigit || c == '.'

/-- Numeric value of a list of decimal digits (as read left to right). -/
def digitsVal (cs : List Char) : Nat :=
  cs.foldl (fun n c => 10 * n + (c.toNat - 48)) 0

/-- Python `float(s)` restricted to strings over `[0-9.]` — exactly the
strings the regex group `([\d.]+)` can produce: valid iff it has at least
one digit and at most one dot.  (Signed/exponent/inf forms of Python
`float` cannot arise from the regex group and are treated as unparsable;
no claim depends on them.)  `none` models a `ValueError`. -/
def parseFloatRun (cs : List Char) : Option ℚ :=
  if cs.all digitOrDot then
    if (cs.filter (fun c => c == '.')).length ≤ 1 then
      if (cs.filter (fun c => c.isDigit)).length ≠ 0 then
        -- value: all digits read as an integer, divided by 10 ^ (number of
        -- digits after the dot) — the value of `intpart.fracpart`.
        let frac := (cs.dropWhile (fun c => c.isDigit)).drop 1
        some (mkRat (digitsVal (cs.filter (fun c => c.isDigit))) (10 ^ frac.length))
      else none
    else none
  else none

/-- `re.search(pat ++ "([\d.]+)", line)`: scan left to right for the first
position where the literal `pat` is followed by at least one `[\d.]`
character; return the (greedy) matched group. -/
def searchMarker (pat : List Char) : List Char → Option (List Char)
  | [] => none
  | c :: rest =>
    if pat.isPrefixOf (c :: rest) then
      let run := ((c :: rest).drop pat.length).takeWhile digitOrDot
      if run.isEmpty then searchMarker pat rest else some run
    else searchMarker pat rest

/-- Python `sub in s` (substring containment). -/
def containsSub (sub : List Char) : List Char → Bool
  | [] => sub.isEmpty
  | c :: rest => sub.isPrefixOf (c :: rest) || containsSub sub rest

/-- The characters after the first occurrence of `sep`;
`none` when `sep` does not occur (then `s.split(sep)` has one part and
indexing `[1]` raises `IndexError`). -/
def afterFirst (sep : List Char) : List Char → Option (List Char)
  | [] => none
  | c :: rest =>
    if sep.isPrefixOf (c :: rest) then some ((c :: rest).drop sep.length)
    else afterFirst sep rest

/-- Truncate at the next occurrence of `sep` (Python `split` parts are
delimited by non-overlapping occurrences). -/
def upToNext (sep : List Char) : List Char → List Char
  | [] => []
  | c :: rest =>
    if sep.isPrefixOf (c :: rest) then [] else c :: upToNext sep rest

/-- `line.split(sep)[1]`: `none` models the `IndexError` when `sep` is
absent. -/
def pySplitSecond (sep s : List Char) : Option (List Char) :=
  (afterFirst sep s).map (upToNext sep)

def isSpaceChar (c : Char) : Bool :=
  c == ' ' || c == '\t' || c == '\n' || c == '\r'

/-- `s.split()[0]`: first whitespace-delimited token; `none` models the
`IndexError` on a blank string. -/
def firstToken (s : List Char) : Option (List Char) :=
  let t := (s.dropWhile isSpaceChar).takeWhile (fun c => !isSpaceChar c)
  if t.isEmpty then none else some t

/-- `float(line.split(sep)[1].split()[0])` from
`VideoProcessor._parse_silence_output`; `none` models any of the
`IndexError`/`ValueError` raise paths. -/
def videoExtractTime (sep line : List Char) : Option ℚ :=
  match pySplitSecond sep line with
  | none => none
  | some part =>
    match firstToken part with
    | none => none
    | some tok => parseFloatRun tok

def startLit : List Char := "silence_start: ".toList
def endLit : List Char := "silence_end: ".toList
def startSub : List Char := "silence_start".toList
def endSub : List Char := "silence_end".toList

/-- Python `output.split(\x27\n\x27)`. -/
def splitNL : List Char → List (List Char)
  | [] => [[]]
  | c :: rest =>
    let r := splitNL rest
    if c == '\n' then [] :: r
    else
      match r with
      | [] => [[c]]
      | l :: ls => (c :: l) :: ls

namespace RemsiProcessor

/-- Loop body of `RemsiProcessor._parse_silence_output`
(`remsi_integration.py` lines 56–81), with the pending
`current_start` as explicit state.  `Except.error ()` models an uncaught
`ValueError` from `float(...)` escaping the method. -/
def parseAux (cur : Option ℚ) : List (List Char) → Except Unit (List (ℚ × ℚ))
  | [] => Except.ok []
  | line :: rest =>
    match searchMarker startLit line with
    | some run =>
      match parseFloatRun run with
      | some t => parseAux (some t) rest
      | none => Except.error ()
    | none =>
      match searchMarker endLit line, cur with
      | some run, some s =>
        match parseFloatRun run with
        | some e => (parseAux none rest).map (fun l => (s, e) :: l)
        | none => Except.error ()
      | _, _ => parseAux cur rest

/-- `RemsiProcessor._parse_silence_output` on a list of trace lines. -/
def parse_silence_output (lines : List (List Char)) : Except Unit (List (ℚ × ℚ)) :=
  parseAux none lines

end RemsiProcessor

namespace VideoProcessor

/-- Loop body of `VideoProcessor._parse_silence_output`
(`video_processor.py` lines 117–131).  `st` is the last assigned
`start_time` (never reset by the source); `Except.error ()` models the
uncaught `IndexError`/`ValueError`/`NameError` raise paths. -/
def parseAux (st : Option ℚ) : List (List Char) → Except Unit (List (ℚ × ℚ))
  | [] => Except.ok []
  | line :: rest =>
    if containsSub startSub line then
      match videoExtractTime startLit line with
      | some t => parseAux (some t) rest
      | none => Except.error ()
    else if containsSub endSub line then
      match videoExtractTime endLit line with
      | some e =>
        match st with
        | some s => (parseAux st rest).map (fun l => (s, e) :: l)
        | none => Except.error ()
      | none => Except.error ()
    else parseAux st rest

/-- `VideoProcessor._parse_silence_output` on a list of trace lines. -/
def parse_silence_output (lines : List (List Char)) : Except Unit (List (ℚ × ℚ)) :=
  parseAux none lines

end VideoProcessor

/-! ## Segment planning (`RemsiProcessor.create_filter_complex`, lines 94–114)

The loop over `silence_segments` that builds `non_silent_segments`
(the keep intervals), translated with the accumulator and `last_end`
made explicit. -/

/-- The loop of `create_filter_complex` building `non_silent_segments`:
returns the accumulated list and the final `last_end`. -/
def nonSilentFold : List (ℚ × ℚ) → ℚ → List (ℚ × ℚ) → List (ℚ × ℚ) × ℚ
  | acc, lastEnd, [] => (acc, lastEnd)
  | acc, lastEnd, (s, e) :: rest =>
    nonSilentFold (if lastEnd < s then acc ++ [(lastEnd, s)] else acc) e rest

/-- `non_silent_segments` as computed by
`RemsiProcessor.create_filter_complex`: gap intervals between consecutive
silence intervals, plus a final segment up to `duration` if any content
remains. -/
def nonSilentSegments (silence : List (ℚ × ℚ)) (duration : ℚ) : List (ℚ × ℚ) :=
  let r := nonSilentFold [] 0 silence
  if r.2 < duration then r.1 ++ [(r.2, duration)] else r.1

/-! ## Filter-graph synthesis (`create_filter_complex` lines 94–130,
`VideoProcessor._create_filter_complex` lines 133–152) -/

/-- Stand-in for Python's `str` applied to a float timestamp inside the
f-strings; the claims under verification are insensitive to the exact
decimal rendering, so the builders are parameterised by it. -/
def qRender (q : ℚ) : String := toString q

/-- The identity graph returned when no silence was detected. -/
def identityFilter : String := "[0:v][0:a]concat=n=1:v=1:a=1[out]"

/-- The fallback graph returned when the whole clip is silent: it keeps
a single interval of length 0.1 starting at 0 (`trim=duration=0.1`). -/
def fallbackFilter : String :=
  "[0:v]trim=duration=0.1,setpts=PTS-STARTPTS[outv];[0:a]atrim=duration=0.1,asetpts=PTS-STARTPTS[outa];[outv][outa]concat=n=1:v=1:a=1[out]"

/-- The per-interval loop: one video trim node and one audio trim node
for keep interval `i`, labels a pure function of the index. -/
def trimFilters (render : ℚ → String) : Nat → List (ℚ × ℚ) → List String
  | _, [] => []
  | i, (s, e) :: rest =>
    ("[0:v]trim=start=" ++ render s ++ ":end=" ++ render e ++
      ",setpts=PTS-STARTPTS[v" ++ toString i ++ "]") ::
    ("[0:a]atrim=start=" ++ render s ++ ":end=" ++ render e ++
      ",asetpts=PTS-STARTPTS[a" ++ toString i ++ "]") ::
    trimFilters render (i + 1) rest

/-- `"".join(f"[v{i}]" for i in range(n))` and the audio analogue. -/
def labelRefs (tag : String) (n : Nat) : String :=
  String.join ((List.range n).map (fun i => "[" ++ tag ++ toString i ++ "]"))

/-- The `filters` list built for a non-empty keep list: interleaved
trim nodes, the two concat nodes, and the final merge node. -/
def filtersList (render : ℚ → String) (keep : List (ℚ × ℚ)) : List String :=
  trimFilters render 0 keep ++
  [ labelRefs "v" keep.length ++ "concat=n=" ++ toString keep.length ++ ":v=1:a=0[outv]",
    labelRefs "a" keep.length ++ "concat=n=" ++ toString keep.length ++ ":v=0:a=1[outa]",
    "[outv][outa]concat=n=1:v=1:a=1[out]" ]

/-- `RemsiProcessor.create_filter_complex` (lines 83–130). -/
def create_filter_complex (render : ℚ → String) (silence : List (ℚ × ℚ))
    (duration : ℚ) : String :=
  if silence = [] then identityFilter
  else
    let ns := nonSilentSegments silence duration
    if ns = [] then fallbackFilter
    else String.intercalate ";" (filtersList render ns)

/-- `VideoProcessor._create_filter_complex` (lines 133–152): textually
near-identical to the builder part of `create_filter_complex`, taking the
keep segments directly. -/
def vpCreateFilterComplex (render : ℚ → String) (segments : List (ℚ × ℚ)) : String :=
  if segments = [] then identityFilter
  else String.intercalate ";" (filtersList render segments)

/-! ## Interval predicates used to state the claims -/

/-- The spec's `SilenceIntervalSet`/`KeepIntervalSet` invariant relative
to a lower bound `t` and total duration `D`: sorted ascending,
pairwise non-overlapping (touching allowed), each interval non-degenerate
and contained in `[t, D]`. -/
def ValidFrom (D : ℚ) : ℚ → List (ℚ × ℚ) → Prop
  | _, [] => True
  | t, (s, e) :: rest => t ≤ s ∧ s < e ∧ e ≤ D ∧ ValidFrom D e rest

/-- Point membership in a union of half-open intervals `[s, e)`. -/
def Covers (l : List (ℚ × ℚ)) (x : ℚ) : Prop :=
  ∃ p ∈ l, p.1 ≤ x ∧ x < p.2

/-- Functional restatement of the planner loop used for the proofs:
`planFrom D t l` is the keep list produced from pending position `t`.
(Proved equal to `nonSilentSegments` below.) -/
def planFrom (D : ℚ) : ℚ → List (ℚ × ℚ) → List (ℚ × ℚ)
  | t, [] => if t < D then [(t, D)] else []
  | t, (s, e) :: rest =>
    if t < s then (t, s) :: planFrom D e rest else planFrom D e rest

/-! ## Job lifecycle and external-process model

External effects (subprocess runs, ffprobe, the whisper model, the job
store) are modelled by explicit outcome records; every external
invocation the code performs is recorded as an `Event`, so that claims
of the form "stage X is (not) invoked" are statable. -/

/-- External stage invocations, in the order the code performs them. -/
inductive Event
  | probeRun        -- `ffmpeg.probe` inside `get_video_duration`
  | remsiProbeRun   -- `ffprobe` inside `RemsiProcessor.process_video`
  | detectorRun     -- the `silencedetect` subprocess in `detect_silence`
  | encodeRun       -- the final encoding `ffmpeg` subprocess
  | whisperLoad     -- `whisper.load_model`
  | extractRun      -- audio extraction in `process_with_whisper`
  | transcribeRun   -- `whisper_model.transcribe`
  | copyRun         -- stream-copy `ffmpeg` in the no-speech branch
deriving DecidableEq

/-- Outcome of the `silencedetect` subprocess run:
either `subprocess.run` itself raises (tool fails to start), or the
process finishes with an exit code and combined stdout/stderr text. -/
inductive DetectOutcome
  | launchFailure (msg : String)
  | finished (exitCode : Int) (output : List Char)

/-- External-world outcomes for one free-tier job. -/
structure FreeEnv where
  /-- `ffmpeg.probe` result in `get_video_duration`; `none` = exception. -/
  probeDuration : Option ℚ
  /-- the `ffprobe` duration query in `RemsiProcessor.process_video`;
  `none` = exception (probe fails or its stdout is not a float). -/
  remsiProbe : Option ℚ
  detect : DetectOutcome
  /-- the final encode (`subprocess.run(..., check=True)`);
  `Except.error m` = `CalledProcessError` with message `m`. -/
  encode : Except String Unit

/-- `VideoProcessor.get_video_duration` (lines 18–26): any probe failure
is caught and `0.0` returned. -/
def get_video_duration (probe : Option ℚ) : ℚ :=
  match probe with
  | some d => d
  | none => 0

/-- `RemsiProcessor.detect_silence` (lines 18–54): runs the detector,
parses its output; the catch-all `except` turns a launch failure or a
parse exception into `[]`; the exit code is never inspected. -/
def detect_silence (o : DetectOutcome) : List (ℚ × ℚ) :=
  match o with
  | .launchFailure _ => []
  | .finished _ out =>
    match RemsiProcessor.parse_silence_output (splitNL out) with
    | .ok segs => segs
    | .error _ => []

def tierMessage : String := "Free tier only supports videos under 1 minute"
def remsiFailMessage : String := "Failed to process video with Remsi"

/-- `RemsiProcessor.process_video` (lines 132–176): probe duration,
detect silence, build the filter graph, encode; any exception is caught
and `False` returned. -/
def remsiProcessVideo (env : FreeEnv) : Bool × List Event :=
  match env.remsiProbe with
  | none => (false, [.remsiProbeRun])
  | some dur =>
    let segs := detect_silence env.detect
    let _fc := create_filter_complex qRender segs dur
    match env.encode with
    | .ok _ => (true, [.remsiProbeRun, .detectorRun, .encodeRun])
    | .error _ => (false, [.remsiProbeRun, .detectorRun, .encodeRun])

/-- `VideoProcessor.process_with_ffmpeg` (lines 28–61): the ≤ 60 s tier
gate, then the Remsi pipeline; the tier `ValueError` and the generic
failure `Exception` are re-raised to the caller verbatim. -/
def process_with_ffmpeg (env : FreeEnv) : Except String String × List Event :=
  let duration := get_video_duration env.probeDuration
  if duration > 60 then (.error tierMessage, [.probeRun])
  else
    match remsiProcessVideo env with
    | (true, evs) => (.ok "processed_output", .probeRun :: evs)
    | (false, evs) => (.error remsiFailMessage, .probeRun :: evs)

/-- External-world outcomes for one premium-tier job; each field is the
result of the corresponding external call, `Except.error m` meaning the
call raised with message `m`. -/
structure PremiumEnv where
  loadModel : Except String Unit
  extract : Except String Unit
  /-- `transcribe`: the time-stamped speech segments of
  `result.get("segments", [])`. -/
  transcribe : Except String (List (ℚ × ℚ))
  encode : Except String Unit
  copy : Except String Unit

/-- `VideoProcessor._create_whisper_filter_complex` (lines 154–175):
same builder as `_create_filter_complex`, over the speech segments. -/
def createWhisperFilterComplex (render : ℚ → String)
    (segments : List (ℚ × ℚ)) : String :=
  if segments = [] then identityFilter
  else String.intercalate ";" (filtersList render segments)

/-- `VideoProcessor.process_with_whisper` (lines 63–115): load model,
extract audio, transcribe, then encode with the filter graph (or stream
copy when no speech); every exception is re-raised verbatim. -/
def process_with_whisper (env : PremiumEnv) : Except String String × List Event :=
  match env.loadModel with
  | .error m => (.error m, [.whisperLoad])
  | .ok _ =>
    match env.extract with
    | .error m => (.error m, [.whisperLoad, .extractRun])
    | .ok _ =>
      match env.transcribe with
      | .error m => (.error m, [.whisperLoad, .extractRun, .transcribeRun])
      | .ok segs =>
        if segs ≠ [] then
          let _fc := createWhisperFilterComplex qRender segs
          match env.encode with
          | .ok _ =>
            (.ok "processed_output", [.whisperLoad, .extractRun, .transcribeRun, .encodeRun])
          | .error m =>
            (.error m, [.whisperLoad, .extractRun, .transcribeRun, .encodeRun])
        else
          match env.copy with
          | .ok _ =>
            (.ok "processed_output", [.whisperLoad, .extractRun, .transcribeRun, .copyRun])
          | .error m =>
            (.error m, [.whisperLoad, .extractRun, .transcribeRun, .copyRun])

inductive JobStatus
  | pending
  | processing
  | completed
  | failed
deriving DecidableEq

/-- The job-record fields mutated by the Celery tasks. -/
structure Job where
  status : JobStatus
  error_message : Option String
  processed_file_url : Option String

/-- `main.process_video_free` (lines 273–301): set PROCESSING, run the
pipeline once, then COMPLETED with the output url, or FAILED with
`str(e)` of the exception that reached the task.  No retry: the pipeline
is invoked exactly once. -/
def process_video_free (j : Job) (env : FreeEnv) : Job × List Event :=
  match process_with_ffmpeg env with
  | (.ok path, evs) =>
    ({ j with status := .completed, processed_file_url := some path }, evs)
  | (.error m, evs) =>
    ({ j with status := .failed, error_message := some m }, evs)

/-- `main.process_video_premium` (lines 303–331): same shape over the
whisper pipeline. -/
def process_video_premium (j : Job) (env : PremiumEnv) : Job × List Event :=
  match process_with_whisper env with
  | (.ok path, evs) =>
    ({ j with status := .completed, processed_file_url := some path }, evs)
  | (.error m, evs) =>
    ({ j with status := .failed, error_message := some m }, evs)

/-! ## Planner lemmas -/

theorem covers_nil (x : ℚ) : ¬ Covers [] x := by
  simp [Covers]

theorem covers_cons {p : ℚ × ℚ} {l : List (ℚ × ℚ)} {x : ℚ} :
    Covers (p :: l) x ↔ (p.1 ≤ x ∧ x < p.2) ∨ Covers l x := by
  constructor
  · rintro ⟨q, hq, h1, h2⟩
    rcases List.mem_cons.mp hq with hq | hq
    · exact Or.inl (hq ▸ ⟨h1, h2⟩)
    · exact Or.inr ⟨q, hq, h1, h2⟩
  · rintro (⟨h1, h2⟩ | ⟨q, hq, h1, h2⟩)
    · exact ⟨p, List.mem_cons_self p l, h1, h2⟩
    · exact ⟨q, List.mem_cons_of_mem p hq, h1, h2⟩

/-- The loop of `create_filter_complex` plus the conditional final
segment compute `planFrom`. -/
theorem nonSilentFold_eq (D : ℚ) (l : List (ℚ × ℚ)) :
    ∀ (acc : List (ℚ × ℚ)) (t : ℚ),
      (if (nonSilentFold acc t l).2 < D
        then (nonSilentFold acc t l).1 ++ [((nonSilentFold acc t l).2, D)]
        else (nonSilentFold acc t l).1) = acc ++ planFrom D t l := by
  induction l with
  | nil =>
    intro acc t
    simp only [nonSilentFold, planFrom]
    split <;> simp
  | cons p rest ih =>
    obtain ⟨s, e⟩ := p
    intro acc t
    simp only [nonSilentFold, planFrom]
    by_cases hts : t < s
    · simp only [if_pos hts, ih]
      simp
    · simp only [if_neg hts, ih]

/-- `nonSilentSegments` agrees with the functional restatement. -/
theorem nonSilentSegments_eq_planFrom (silence : List (ℚ × ℚ)) (D : ℚ) :
    nonSilentSegments silence D = planFrom D 0 silence := by
  have h := nonSilentFold_eq D silence [] 0
  simpa [nonSilentSegments] using h

theorem validFrom_mono (D : ℚ) {l : List (ℚ × ℚ)} {t t' : ℚ}
    (h : t' ≤ t) (hv : ValidFrom D t l) : ValidFrom D t' l := by
  cases l with
  | nil => trivial
  | cons p rest =>
    obtain ⟨s, e⟩ := p
    obtain ⟨h1, h2, h3, h4⟩ := hv
    exact ⟨le_trans h h1, h2, h3, h4⟩

theorem validFrom_start_ge (D : ℚ) :
    ∀ (l : List (ℚ × ℚ)) (t : ℚ), ValidFrom D t l → ∀ p ∈ l, t ≤ p.1 := by
  intro l
  induction l with
  | nil => intro t _ p hp; cases hp
  | cons q rest ih =>
    obtain ⟨s, e⟩ := q
    rintro t ⟨h1, h2, h3, h4⟩ p hp
    rcases List.mem_cons.mp hp with hp | hp
    · exact hp ▸ h1
    · exact le_trans (le_trans h1 (le_of_lt h2)) (ih e h4 p hp)

theorem validFrom_mem_bounds (D : ℚ) :
    ∀ (l : List (ℚ × ℚ)) (t : ℚ), ValidFrom D t l →
      ∀ p ∈ l, t ≤ p.1 ∧ p.1 < p.2 ∧ p.2 ≤ D := by
  intro l
  induction l with
  | nil => intro t _ p hp; cases hp
  | cons q rest ih =>
    obtain ⟨s, e⟩ := q
    rintro t ⟨h1, h2, h3, h4⟩ p hp
    rcases List.mem_cons.mp hp with hp | hp
    · subst hp; exact ⟨h1, h2, h3⟩
    · obtain ⟨ha, hb, hc⟩ := ih e h4 p hp
      exact ⟨le_trans (le_trans h1 (le_of_lt h2)) ha, hb, hc⟩

/-- Consecutive intervals of a valid list do not overlap. -/
theorem validFrom_chain (D : ℚ) :
    ∀ (l : List (ℚ × ℚ)) (t : ℚ), ValidFrom D t l →
      List.Chain' (fun a b : ℚ × ℚ => a.2 ≤ b.1) l := by
  intro l
  induction l with
  | nil => intro _ _; exact List.chain'_nil
  | cons q rest ih =>
    obtain ⟨s, e⟩ := q
    rintro t ⟨h1, h2, h3, h4⟩
    refine List.chain'_cons'.mpr ⟨?_, ih e h4⟩
    intro p hp
    have := validFrom_start_ge D rest e h4 p (List.mem_of_mem_head? hp)
    exact this

/-- The planner's loop preserves the interval invariant. -/
theorem planFrom_valid (D : ℚ) :
    ∀ (l : List (ℚ × ℚ)) (t : ℚ), ValidFrom D t l →
      ValidFrom D t (planFrom D t l) := by
  intro l
  induction l with
  | nil =>
    intro t _
    simp only [planFrom]
    split
    · exact ⟨le_refl t, by assumption, le_refl D, trivial⟩
    · trivial
  | cons q rest ih =>
    obtain ⟨s, e⟩ := q
    rintro t ⟨h1, h2, h3, h4⟩
    simp only [planFrom]
    by_cases hts : t < s
    · simp only [if_pos hts]
      refine ⟨le_refl t, hts, le_trans (le_of_lt h2) h3, ?_⟩
      exact validFrom_mono D (le_of_lt h2) (ih e h4)
    · simp only [if_neg hts]
      exact validFrom_mono D (le_trans h1 (le_of_lt h2)) (ih e h4)

/-- Pointwise complement correctness of the planner loop: a time `x` is
inside some keep interval exactly when it lies in `[t, D)` and inside no
silence interval. -/
theorem covers_planFrom (D : ℚ) :
    ∀ (l : List (ℚ × ℚ)) (t : ℚ), ValidFrom D t l →
      ∀ x : ℚ, Covers (planFrom D t l) x ↔ (t ≤ x ∧ x < D ∧ ¬ Covers l x) := by
  intro l
  induction l with
  | nil =>
    intro t _ x
    simp only [planFrom]
    split
    · rw [covers_cons]
      dsimp only
      constructor
      · rintro (⟨h1, h2⟩ | hcov)
        · exact ⟨h1, h2, covers_nil x⟩
        · exact absurd hcov (covers_nil x)
      · rintro ⟨h1, h2, _⟩
        exact Or.inl ⟨h1, h2⟩
    · rename_i hDt
      constructor
      · intro h
        exact absurd h (covers_nil x)
      · rintro ⟨h1, h2, _⟩
        exact absurd (lt_of_le_of_lt h1 h2) hDt
  | cons q rest ih =>
    obtain ⟨s, e⟩ := q
    rintro t ⟨h1, h2, h3, h4⟩ x
    have ihx := ih e h4 x
    have hge := validFrom_start_ge D rest e h4
    have hnc : x < e → ¬ Covers rest x := by
      rintro hxe ⟨p, hp, hpx, hpy⟩
      have := hge p hp
      linarith
    simp only [planFrom]
    by_cases hts : t < s
    · simp only [if_pos hts]
      rw [covers_cons, ihx]
      rw [covers_cons]
      dsimp only
      constructor
      · rintro (⟨ha, hb⟩ | ⟨ha, hb, hc⟩)
        · refine ⟨ha, by linarith, ?_⟩
          rintro (⟨hsx, hxe⟩ | hcov)
          · linarith
          · exact hnc (by linarith) hcov
        · refine ⟨by linarith, hb, ?_⟩
          rintro (⟨hsx, hxe⟩ | hcov)
          · linarith
          · exact hc hcov
      · rintro ⟨ha, hb, hc⟩
        by_cases hxs : x < s
        · exact Or.inl ⟨ha, hxs⟩
        · push_neg at hxs
          refine Or.inr ⟨?_, hb, fun hcov => hc (Or.inr hcov)⟩
          by_contra hex
          push_neg at hex
          exact hc (Or.inl ⟨hxs, hex⟩)
    · simp only [if_neg hts]
      have hts' : t = s := le_antisymm h1 (le_of_not_lt hts)
      rw [ihx, covers_cons]
      dsimp only
      constructor
      · rintro ⟨ha, hb, hc⟩
        refine ⟨by linarith, hb, ?_⟩
        rintro (⟨hsx, hxe⟩ | hcov)
        · linarith
        · exact hc hcov
      · rintro ⟨ha, hb, hc⟩
        refine ⟨?_, hb, fun hcov => hc (Or.inr hcov)⟩
        rcases le_or_lt e x with hex | hex
        · exact hex
        · exact absurd (Or.inl ⟨by linarith, hex⟩) hc

/-! ## Parser lemmas -/

/-- Appending a well-formed `silence_start` line to a trace leaves the
output of the Remsi parser unchanged: its loop only records the pending
start and emits nothing for it. -/
theorem remsiParseAux_append_start (l : List Char) {run : List Char} {t : ℚ}
    (h1 : searchMarker startLit l = some run) (h2 : parseFloatRun run = some t) :
    ∀ (lines : List (List Char)) (cur : Option ℚ),
      RemsiProcessor.parseAux cur (lines ++ [l]) = RemsiProcessor.parseAux cur lines := by
  intro lines
  induction lines with
  | nil =>
    intro cur
    simp only [List.nil_append, RemsiProcessor.parseAux, h1, h2]
  | cons line rest ih =>
    intro cur
    simp only [List.cons_append, RemsiProcessor.parseAux]
    cases hm : searchMarker startLit line with
    | some run' =>
      cases hp : parseFloatRun run' with
      | some t' =>
        simp only [hm, hp]
        exact ih (some t')
      | none => simp only [hm, hp]
    | none =>
      cases hm2 : searchMarker endLit line with
      | some run' =>
        cases cur with
        | some s =>
          cases hp : parseFloatRun run' with
          | some e =>
            simp only [hm, hm2, hp]
            exact congrArg _ (ih none)
          | none => simp only [hm, hm2, hp]
        | none =>
          simp only [hm, hm2]
          exact ih none
      | none =>
        cases cur <;> simp only [hm, hm2] <;> exact ih _

/-- Same for the VideoProcessor parser: a trailing `silence_start` line
only assigns `start_time` and appends nothing. -/
theorem videoParseAux_append_start (l : List Char) {t : ℚ}
    (h1 : containsSub startSub l = true) (h2 : videoExtractTime startLit l = some t) :
    ∀ (lines : List (List Char)) (st : Option ℚ),
      VideoProcessor.parseAux st (lines ++ [l]) = VideoProcessor.parseAux st lines := by
  intro lines
  induction lines with
  | nil =>
    intro st
    simp only [List.nil_append, VideoProcessor.parseAux, h1, h2, if_pos]
  | cons line rest ih =>
    intro st
    simp only [List.cons_append, VideoProcessor.parseAux]
    cases hc1 : containsSub startSub line with
    | true =>
      cases hp : videoExtractTime startLit line with
      | some t' =>
        simp only [hc1, hp, if_true]
        exact ih (some t')
      | none => simp [hc1, hp]
    | false =>
      cases hc2 : containsSub endSub line with
      | true =>
        cases hp : videoExtractTime endLit line with
        | some e =>
          cases st with
          | some s =>
            simp only [hc1, hc2, hp]
            simp only [Bool.false_eq_true, if_false, if_true]
            exact congrArg _ (ih (some s))
          | none => simp [hc1, hc2, hp]
        | none => simp [hc1, hc2, hp]
      | false =>
        simp only [hc1, hc2, Bool.false_eq_true, if_false]
        exact ih st

/-- A line matching neither marker pattern is skipped by the Remsi
parser, whatever the pending state. -/
theorem remsiParseAux_skip (line : List Char)
    (h1 : searchMarker startLit line = none) (h2 : searchMarker endLit line = none) :
    ∀ (rest : List (List Char)) (cur : Option ℚ),
      RemsiProcessor.parseAux cur (line :: rest) = RemsiProcessor.parseAux cur rest := by
  intro rest cur
  cases cur <;> simp only [RemsiProcessor.parseAux, h1, h2]

/-- An end marker with no pending start is skipped by the Remsi parser
(the short-circuit `and` prevents even the float conversion). -/
theorem remsiParseAux_end_no_start (line : List Char) {run : List Char}
    (h1 : searchMarker startLit line = none) (h2 : searchMarker endLit line = some run) :
    ∀ rest : List (List Char),
      RemsiProcessor.parseAux none (line :: rest) = RemsiProcessor.parseAux none rest := by
  intro rest
  simp only [RemsiProcessor.parseAux, h1, h2]

/-- `detect_silence` swallows a parse exception and yields `[]`. -/
theorem detect_silence_of_parse_error (c : Int) (out : List Char)
    (h : RemsiProcessor.parse_silence_output (splitNL out) = Except.error ()) :
    detect_silence (.finished c out) = [] := by
  simp only [detect_silence, h]

/-! ## Filter-builder lemmas -/

theorem trimFilters_length (render : ℚ → String) :
    ∀ (keep : List (ℚ × ℚ)) (i : Nat),
      (trimFilters render i keep).length = 2 * keep.length := by
  intro keep
  induction keep with
  | nil => intro i; rfl
  | cons p rest ih =>
    obtain ⟨s, e⟩ := p
    intro i
    simp only [trimFilters, List.length_cons, ih (i + 1)]
    ring

theorem filtersList_length (render : ℚ → String) (keep : List (ℚ × ℚ)) :
    (filtersList render keep).length = 2 * keep.length + 3 := by
  simp [filtersList, trimFilters_length]

/-- Starts of a valid interval list are strictly increasing. -/
theorem validFrom_chain_lt (D : ℚ) :
    ∀ (l : List (ℚ × ℚ)) (t : ℚ), ValidFrom D t l →
      List.Chain' (fun a b : ℚ × ℚ => a.1 < b.1) l := by
  intro l
  induction l with
  | nil => intro _ _; exact List.chain'_nil
  | cons q rest ih =>
    obtain ⟨s, e⟩ := q
    rintro t ⟨h1, h2, h3, h4⟩
    refine List.chain'_cons'.mpr ⟨?_, ih e h4⟩
    intro p hp
    have := validFrom_start_ge D rest e h4 p (List.mem_of_mem_head? hp)
    dsimp only
    linarith

/-! ## Claim theorems -/

/-- C1: for every silence interval list satisfying the spec's
`SilenceIntervalSet` invariant (sorted, pairwise non-overlapping,
contained in `[0, D]` — under which merging is the identity), the keep
intervals computed by the basic-tier planner
(`non_silent_segments` in `RemsiProcessor.create_filter_complex`) are
exactly the complement of the silence intervals over `[0, D)`:
a point is covered by a keep interval iff it lies in `[0, D)` and in no
silence interval.  In particular, `silence = [(2.0, 4.0), (10.0, 11.5)]`
with `D = 15.0` yields keep `[(0, 2.0), (4.0, 10.0), (11.5, 15.0)]`. -/
theorem c1_basic_planner_complement :
    (∀ (silence : List (ℚ × ℚ)) (D : ℚ), ValidFrom D 0 silence →
      ∀ x : ℚ, Covers (nonSilentSegments silence D) x ↔
        (0 ≤ x ∧ x < D ∧ ¬ Covers silence x)) ∧
    nonSilentSegments [(2, 4), (10, 11.5)] 15 = [(0, 2), (4, 10), (11.5, 15)] := by
  constructor
  · intro silence D hv x
    rw [nonSilentSegments_eq_planFrom]
    exact covers_planFrom D silence 0 hv x
  · norm_num [nonSilentSegments, nonSilentFold]

/-- Witness for C1 at the spec's example, evaluated at `x = 5`. -/
theorem c1_basic_planner_complement_witness :
    Covers (nonSilentSegments [(2, 4), (10, 11.5)] 15) 5 ↔
      (0 ≤ (5 : ℚ) ∧ (5 : ℚ) < 15 ∧ ¬ Covers [(2, 4), (10, 11.5)] 5) :=
  c1_basic_planner_complement.1 [(2, 4), (10, 11.5)] 15 (by norm_num [ValidFrom]) 5

/-- C3: if the silence intervals (satisfying the input invariant) cover
all of `[0, D)` with `D > 0`, the planner's keep list is empty and
`create_filter_complex` returns the fallback graph, which keeps the
single interval `(0, 0.1)` (`trim=duration=0.1` starting at 0) rather
than an empty keep set. -/
theorem c3_full_silence_fallback (silence : List (ℚ × ℚ)) (D : ℚ)
    (hv : ValidFrom D 0 silence) (hD : 0 < D)
    (hcov : ∀ x : ℚ, 0 ≤ x → x < D → Covers silence x) :
    nonSilentSegments silence D = [] ∧
    ∀ render : ℚ → String, create_filter_complex render silence D = fallbackFilter := by
  have hne : silence ≠ [] := by
    intro h
    have := hcov 0 le_rfl hD
    rw [h] at this
    exact covers_nil 0 this
  have hns : nonSilentSegments silence D = [] := by
    rw [nonSilentSegments_eq_planFrom]
    rcases hkeep : planFrom D 0 silence with _ | ⟨p, rest⟩
    · rfl
    · exfalso
      obtain ⟨s, e⟩ := p
      have hvp := planFrom_valid D silence 0 hv
      rw [hkeep] at hvp
      obtain ⟨ha, hb, hc, _⟩ := hvp
      have hmem : Covers (planFrom D 0 silence) s := by
        rw [hkeep]
        exact covers_cons.mpr (Or.inl ⟨le_refl s, hb⟩)
      obtain ⟨h0s, hsD, hnotc⟩ := (covers_planFrom D silence 0 hv s).mp hmem
      exact hnotc (hcov s h0s hsD)
  refine ⟨hns, fun render => ?_⟩
  simp [create_filter_complex, hne, hns]

/-- Witness for C3: a clip of duration 5 entirely covered by silence. -/
theorem c3_full_silence_fallback_witness :
    nonSilentSegments [(0, 5)] 5 = [] ∧
    ∀ render : ℚ → String, create_filter_complex render [(0, 5)] 5 = fallbackFilter :=
  c3_full_silence_fallback [(0, 5)] 5 (by norm_num [ValidFrom]) (by norm_num)
    (fun x hx hx5 => ⟨(0, 5), by simp, hx, hx5⟩)

/-- C4: on any silence list satisfying the spec's input invariant, the
planner's keep list is strictly ascending by start, pairwise
non-overlapping, and every keep interval is non-degenerate and contained
in `[0, D]`. -/
theorem c4_keep_invariants (silence : List (ℚ × ℚ)) (D : ℚ)
    (hv : ValidFrom D 0 silence) :
    List.Chain' (fun a b : ℚ × ℚ => a.1 < b.1) (nonSilentSegments silence D) ∧
    List.Chain' (fun a b : ℚ × ℚ => a.2 ≤ b.1) (nonSilentSegments silence D) ∧
    ∀ p ∈ nonSilentSegments silence D, 0 ≤ p.1 ∧ p.1 < p.2 ∧ p.2 ≤ D := by
  rw [nonSilentSegments_eq_planFrom]
  have hvp := planFrom_valid D silence 0 hv
  refine ⟨validFrom_chain_lt D _ 0 hvp, validFrom_chain D _ 0 hvp, ?_⟩
  intro p hp
  exact validFrom_mem_bounds D _ 0 hvp p hp

/-- Witness for C4 on a concrete silence list. -/
theorem c4_keep_invariants_witness :
    List.Chain' (fun a b : ℚ × ℚ => a.1 < b.1) (nonSilentSegments [(2, 4), (10, 11.5)] 15) ∧
    List.Chain' (fun a b : ℚ × ℚ => a.2 ≤ b.1) (nonSilentSegments [(2, 4), (10, 11.5)] 15) ∧
    ∀ p ∈ nonSilentSegments [(2, 4), (10, 11.5)] 15, 0 ≤ p.1 ∧ p.1 < p.2 ∧ p.2 ≤ 15 :=
  c4_keep_invariants [(2, 4), (10, 11.5)] 15 (by norm_num [ValidFrom])

theorem toString_nat_zero : toString (0 : Nat) = "0" := rfl

theorem toString_nat_one : toString (1 : Nat) = "1" := rfl

theorem empty_append_str (s : String) : "" ++ s = s := by
  cases s
  rfl

theorem join_singleton (s : String) : String.join [s] = s := by
  simp [String.join, empty_append_str]

/-- C5: the filter-graph builder is deterministic — node naming depends
only on the interval index, so equal keep lists yield byte-identical
graph strings — the number of graph nodes is `2·n + 3` as a pure
function of the number `n` of keep intervals, and a single keep interval
still produces the full trim + concat + merge chain of 5 nodes. -/
theorem c5_filter_graph_deterministic :
    (∀ (render : ℚ → String) (keep : List (ℚ × ℚ)),
      (filtersList render keep).length = 2 * keep.length + 3) ∧
    (∀ (render : ℚ → String) (k1 k2 : List (ℚ × ℚ)), k1 = k2 →
      vpCreateFilterComplex render k1 = vpCreateFilterComplex render k2 ∧
      String.intercalate ";" (filtersList render k1) =
        String.intercalate ";" (filtersList render k2)) ∧
    (∀ (render : ℚ → String) (s e : ℚ),
      filtersList render [(s, e)] =
        [ "[0:v]trim=start=" ++ render s ++ ":end=" ++ render e ++ ",setpts=PTS-STARTPTS[v0]",
          "[0:a]atrim=start=" ++ render s ++ ":end=" ++ render e ++ ",asetpts=PTS-STARTPTS[a0]",
          "[v0]concat=n=1:v=1:a=0[outv]",
          "[a0]concat=n=1:v=0:a=1[outa]",
          "[outv][outa]concat=n=1:v=1:a=1[out]" ]) := by
  refine ⟨filtersList_length, ?_, ?_⟩
  · intro render k1 k2 h
    rw [h]
    exact ⟨rfl, rfl⟩
  · intro render s e
    simp [filtersList, trimFilters, labelRefs, List.range_succ, String.append_assoc,
      toString_nat_zero, toString_nat_one, join_singleton]

/-- Witness for C5 at a concrete keep list. -/
theorem c5_filter_graph_deterministic_witness :
    (filtersList qRender [(0, 2), (4, 10)]).length = 2 * 2 + 3 ∧
    vpCreateFilterComplex qRender [(0, 2)] = vpCreateFilterComplex qRender [(0, 2)] :=
  ⟨c5_filter_graph_deterministic.1 qRender [(0, 2), (4, 10)],
   (c5_filter_graph_deterministic.2.1 qRender [(0, 2)] [(0, 2)] rfl).1⟩

/-- C2 counterexample: a trace consisting of a single unmatched
`silence_start: 58.0` line yields the empty interval list from both
parsers — neither emits the closed interval `(58.0, 60.0)` claimed for
duration 60.0 (neither parser even receives the duration). -/
theorem c2_counterexample :
    RemsiProcessor.parse_silence_output ["silence_start: 58.0".toList] = Except.ok [] ∧
    VideoProcessor.parse_silence_output ["silence_start: 58.0".toList] = Except.ok [] ∧
    (Except.ok ([] : List (ℚ × ℚ)) : Except Unit (List (ℚ × ℚ))) ≠ Except.ok [(58, 60)] := by
  refine ⟨by decide, by decide, by decide⟩

/-- C2 amended: a trace ending with an unmatched well-formed
`silence_start` marker yields no interval for it — both parsers drop the
trailing start (they agree on this edge case), and the parsed output of
the extended trace equals that of the trace without the final line. -/
theorem c2_trailing_start_dropped (l : List Char) (lines : List (List Char))
    (h1 : ((searchMarker startLit l).bind parseFloatRun).isSome = true)
    (h2 : containsSub startSub l = true)
    (h3 : (videoExtractTime startLit l).isSome = true) :
    RemsiProcessor.parse_silence_output (lines ++ [l]) =
      RemsiProcessor.parse_silence_output lines ∧
    VideoProcessor.parse_silence_output (lines ++ [l]) =
      VideoProcessor.parse_silence_output lines := by
  constructor
  · cases hm : searchMarker startLit l with
    | none => rw [hm] at h1; cases h1
    | some run =>
      cases hp : parseFloatRun run with
      | none => rw [hm] at h1; simp [hp] at h1
      | some t => exact remsiParseAux_append_start l hm hp lines none
  · cases hv : videoExtractTime startLit l with
    | none => rw [hv] at h3; cases h3
    | some t => exact videoParseAux_append_start l h2 hv lines none

/-- Witness for C2 on the spec's example line appended to a short trace. -/
theorem c2_trailing_start_dropped_witness :
    RemsiProcessor.parse_silence_output
        (["silence_start: 1.0".toList, "silence_end: 2.0".toList] ++
          ["silence_start: 58.0".toList]) =
      RemsiProcessor.parse_silence_output
        ["silence_start: 1.0".toList, "silence_end: 2.0".toList] ∧
    VideoProcessor.parse_silence_output
        (["silence_start: 1.0".toList, "silence_end: 2.0".toList] ++
          ["silence_start: 58.0".toList]) =
      VideoProcessor.parse_silence_output
        ["silence_start: 1.0".toList, "silence_end: 2.0".toList] :=
  c2_trailing_start_dropped "silence_start: 58.0".toList
    ["silence_start: 1.0".toList, "silence_end: 2.0".toList]
    (by decide) (by decide) (by decide)

/-- C9 counterexample: a marker whose matched timestamp is not a valid
float (`silence_start: 1.2.3`) aborts the Remsi parser with a
`ValueError` rather than being skipped, and an end marker with no
preceding start (`silence_end: 5.0` first) aborts the VideoProcessor
parser with a `NameError` — refuting "malformed lines are always skipped
and never cause the parser to abort". -/
theorem c9_counterexample :
    RemsiProcessor.parse_silence_output ["silence_start: 1.2.3".toList] =
      Except.error () ∧
    VideoProcessor.parse_silence_output ["silence_end: 5.0".toList] =
      Except.error () := by
  refine ⟨by decide, by decide⟩

/-- C9 amended: in the live Remsi parser, lines matching neither marker
pattern are skipped, and an end marker with no pending start is skipped
(its timestamp is not even converted); a marker whose matched timestamp
fails float conversion aborts the parse, but `detect_silence` catches
that exception and returns `[]`, so the job itself never aborts. -/
theorem c9_malformed_lines (line : List Char) (rest : List (List Char)) :
    (∀ cur : Option ℚ, searchMarker startLit line = none →
      searchMarker endLit line = none →
      RemsiProcessor.parseAux cur (line :: rest) = RemsiProcessor.parseAux cur rest) ∧
    (∀ run : List Char, searchMarker startLit line = none →
      searchMarker endLit line = some run →
      RemsiProcessor.parseAux none (line :: rest) = RemsiProcessor.parseAux none rest) ∧
    (∀ (c : Int) (out : List Char),
      RemsiProcessor.parse_silence_output (splitNL out) = Except.error () →
      detect_silence (.finished c out) = []) :=
  ⟨fun cur h1 h2 => remsiParseAux_skip line h1 h2 rest cur,
   fun _ h1 h2 => remsiParseAux_end_no_start line h1 h2 rest,
   detect_silence_of_parse_error⟩

/-- Witness for C9: a non-marker line is skipped; an end-without-start
line is skipped; a trace with an invalid timestamp is caught by
`detect_silence`, which returns `[]`. -/
theorem c9_malformed_lines_witness :
    RemsiProcessor.parseAux none
        ("frame=  100 fps=25".toList :: ["silence_end: 9.9".toList]) =
      RemsiProcessor.parseAux none ["silence_end: 9.9".toList] ∧
    detect_silence (.finished 1 "silence_start: 1.2.3".toList) = [] := by
  constructor
  · exact (c9_malformed_lines "frame=  100 fps=25".toList
      ["silence_end: 9.9".toList]).1 none (by decide) (by decide)
  · exact (c9_malformed_lines "".toList []).2.2 1 "silence_start: 1.2.3".toList (by decide)

/-- C6: a basic-tier job whose probed duration exceeds 60 s ends FAILED
with the tier-violation error (`ValueError("Free tier only supports
videos under 1 minute")`, the code's realisation of
`TierViolationError`), raised before the Remsi pipeline runs: neither
the detector nor the encoder is invoked.  A probed duration ≤ 60 s
passes the gate: the tier error is never raised and the pipeline
(starting with its own probe) runs. -/
theorem c6_tier_gate :
    (∀ (env : FreeEnv) (j : Job), get_video_duration env.probeDuration > 60 →
      (process_video_free j env).1.status = JobStatus.failed ∧
      (process_video_free j env).1.error_message = some tierMessage ∧
      Event.detectorRun ∉ (process_video_free j env).2 ∧
      Event.encodeRun ∉ (process_video_free j env).2) ∧
    (∀ env : FreeEnv, get_video_duration env.probeDuration ≤ 60 →
      (process_with_ffmpeg env).1 ≠ Except.error tierMessage ∧
      Event.remsiProbeRun ∈ (process_with_ffmpeg env).2) := by
  constructor
  · intro env j h
    have hred : process_with_ffmpeg env = (.error tierMessage, [.probeRun]) := by
      simp [process_with_ffmpeg, if_pos h]
    refine ⟨?_, ?_, ?_, ?_⟩ <;> simp [process_video_free, hred]
  · intro env h
    have h' : ¬ (get_video_duration env.probeDuration > 60) := not_lt.mpr h
    cases henv : env.remsiProbe with
    | none =>
      have hred : process_with_ffmpeg env =
          (.error remsiFailMessage, [.probeRun, .remsiProbeRun]) := by
        simp [process_with_ffmpeg, remsiProcessVideo, henv, if_neg h']
      rw [hred]
      exact ⟨by decide, by decide⟩
    | some d =>
      cases henc : env.encode with
      | ok u =>
        have hred : process_with_ffmpeg env =
            (.ok "processed_output",
              [.probeRun, .remsiProbeRun, .detectorRun, .encodeRun]) := by
          simp [process_with_ffmpeg, remsiProcessVideo, henv, henc, if_neg h']
        rw [hred]
        exact ⟨by decide, by decide⟩
      | error m =>
        have hred : process_with_ffmpeg env =
            (.error remsiFailMessage,
              [.probeRun, .remsiProbeRun, .detectorRun, .encodeRun]) := by
          simp [process_with_ffmpeg, remsiProcessVideo, henv, henc, if_neg h']
        rw [hred]
        exact ⟨by decide, by decide⟩

/-- Witness for C6: duration 90 is rejected before any detector call;
duration 30 passes the gate. -/
theorem c6_tier_gate_witness :
    ((process_video_free ⟨.pending, none, none⟩
        ⟨some 90, some 30, .finished 0 [], .ok ()⟩).1.status = JobStatus.failed ∧
      (process_video_free ⟨.pending, none, none⟩
        ⟨some 90, some 30, .finished 0 [], .ok ()⟩).1.error_message = some tierMessage ∧
      Event.detectorRun ∉ (process_video_free ⟨.pending, none, none⟩
        ⟨some 90, some 30, .finished 0 [], .ok ()⟩).2 ∧
      Event.encodeRun ∉ (process_video_free ⟨.pending, none, none⟩
        ⟨some 90, some 30, .finished 0 [], .ok ()⟩).2) ∧
    ((process_with_ffmpeg ⟨some 30, some 30, .finished 0 [], .ok ()⟩).1 ≠
        Except.error tierMessage ∧
      Event.remsiProbeRun ∈ (process_with_ffmpeg ⟨some 30, some 30, .finished 0 [], .ok ()⟩).2) :=
  ⟨c6_tier_gate.1 ⟨some 90, some 30, .finished 0 [], .ok ()⟩ ⟨.pending, none, none⟩
      (by norm_num [get_video_duration]),
   c6_tier_gate.2 ⟨some 30, some 30, .finished 0 [], .ok ()⟩
      (by norm_num [get_video_duration])⟩

/-- C7 counterexample: when the silence-analysis subprocess fails to
start, `detect_silence` catches the exception and returns `[]`, and the
job completes successfully — it does not end FAILED and no
`DetectionError` is signalled (none exists in the code). -/
theorem c7_counterexample :
    detect_silence (.launchFailure "ffmpeg not found") = [] ∧
    (process_video_free ⟨.pending, none, none⟩
        ⟨some 30, some 30, .launchFailure "ffmpeg not found", .ok ()⟩).1.status =
      JobStatus.completed := by
  exact ⟨rfl, by decide⟩

/-- C7 amended: detection failures are swallowed, not surfaced: a launch
failure makes `detect_silence` return `[]` (as if no silence was found),
the subprocess exit code is ignored entirely (the output is parsed the
same for any exit code), and a job whose detector failed to launch still
completes when the rest of the pipeline succeeds. -/
theorem c7_detection_failopen :
    (∀ m : String, detect_silence (.launchFailure m) = []) ∧
    (∀ (c c' : Int) (out : List Char),
      detect_silence (.finished c out) = detect_silence (.finished c' out)) ∧
    (∀ (env : FreeEnv) (j : Job) (d : ℚ) (m : String),
      get_video_duration env.probeDuration ≤ 60 → env.remsiProbe = some d →
      env.detect = DetectOutcome.launchFailure m → env.encode = Except.ok () →
      (process_video_free j env).1.status = JobStatus.completed) := by
  refine ⟨fun m => rfl, fun c c' out => rfl, ?_⟩
  intro env j d m h0 h1 h2 h3
  have h' : ¬ (get_video_duration env.probeDuration > 60) := not_lt.mpr h0
  have hred : process_with_ffmpeg env =
      (.ok "processed_output", [.probeRun, .remsiProbeRun, .detectorRun, .encodeRun]) := by
    simp [process_with_ffmpeg, remsiProcessVideo, h1, h3, if_neg h']
  simp [process_video_free, hred]

/-- Witness for C7's amended statement on a concrete environment. -/
theorem c7_detection_failopen_witness :
    (process_video_free ⟨.pending, none, none⟩
        ⟨some 20, some 20, .launchFailure "no such file", .ok ()⟩).1.status =
      JobStatus.completed :=
  c7_detection_failopen.2.2 ⟨some 20, some 20, .launchFailure "no such file", .ok ()⟩
    ⟨.pending, none, none⟩ 20 "no such file"
    (by norm_num [get_video_duration]) rfl rfl rfl

theorem free_events_nodup (env : FreeEnv) (j : Job) :
    ((process_video_free j env).2).Nodup := by
  obtain ⟨pd, rp, det, enc⟩ := env
  by_cases h : get_video_duration pd > 60
  · simp [process_video_free, process_with_ffmpeg, remsiProcessVideo, if_pos h]
  · cases rp with
    | none => simp [process_video_free, process_with_ffmpeg, remsiProcessVideo, if_neg h]
    | some d =>
      cases enc with
      | ok u => simp [process_video_free, process_with_ffmpeg, remsiProcessVideo, if_neg h]
      | error m => simp [process_video_free, process_with_ffmpeg, remsiProcessVideo, if_neg h]

theorem premium_events_nodup (env : PremiumEnv) (j : Job) :
    ((process_video_premium j env).2).Nodup := by
  obtain ⟨lm, ex, tr, en, cp⟩ := env
  cases lm with
  | error m => simp [process_video_premium, process_with_whisper]
  | ok u =>
    cases ex with
    | error m => simp [process_video_premium, process_with_whisper]
    | ok u2 =>
      cases tr with
      | error m => simp [process_video_premium, process_with_whisper]
      | ok segs =>
        by_cases hs : segs ≠ []
        · cases en with
          | ok u3 => simp [process_video_premium, process_with_whisper, hs]
          | error m => simp [process_video_premium, process_with_whisper, hs]
        · cases cp with
          | ok u3 => simp [process_video_premium, process_with_whisper, hs]
          | error m => simp [process_video_premium, process_with_whisper, hs]

/-- C8 counterexample: when the free-tier encoder fails, the message
recorded on the job is the fixed string `"Failed to process video with
Remsi"` — the originating encoder error message is swallowed inside
`RemsiProcessor.process_video`, not recorded verbatim. -/
theorem c8_counterexample :
    (process_video_free ⟨.pending, none, none⟩
        ⟨some 30, some 30, .finished 0 [], .error "encoder exited with status 1"⟩).1.status =
      JobStatus.failed ∧
    (process_video_free ⟨.pending, none, none⟩
        ⟨some 30, some 30, .finished 0 [], .error "encoder exited with status 1"⟩).1.error_message =
      some remsiFailMessage ∧
    remsiFailMessage ≠ "encoder exited with status 1" := by
  refine ⟨by decide, by decide, by decide⟩

/-- C8 amended: every stage failure ends the job FAILED with `str(e)` of
the exception that reached the Celery task, and no stage is retried
(each external invocation occurs at most once per job).  The message is
the originating error's message verbatim on the premium path, but on the
free-tier path an encoder failure surfaces as the fixed message
`"Failed to process video with Remsi"`. -/
theorem c8_failure_handling :
    (∀ (env : PremiumEnv) (j : Job) (m : String),
      (process_with_whisper env).1 = Except.error m →
      (process_video_premium j env).1.status = JobStatus.failed ∧
      (process_video_premium j env).1.error_message = some m) ∧
    (∀ (env : FreeEnv) (j : Job) (d : ℚ) (m : String),
      get_video_duration env.probeDuration ≤ 60 →
      env.remsiProbe = some d → env.encode = Except.error m →
      (process_video_free j env).1.status = JobStatus.failed ∧
      (process_video_free j env).1.error_message = some remsiFailMessage) ∧
    (∀ (env : FreeEnv) (j : Job), ((process_video_free j env).2).Nodup) ∧
    (∀ (env : PremiumEnv) (j : Job), ((process_video_premium j env).2).Nodup) := by
  refine ⟨?_, ?_, free_events_nodup, premium_events_nodup⟩
  · intro env j m hw
    rcases hpw : process_with_whisper env with ⟨res, evs⟩
    rw [hpw] at hw
    simp at hw
    subst hw
    simp [process_video_premium, hpw]
  · intro env j d m h0 h1 h2
    have h' : ¬ (get_video_duration env.probeDuration > 60) := not_lt.mpr h0
    have hred : process_with_ffmpeg env =
        (.error remsiFailMessage,
          [.probeRun, .remsiProbeRun, .detectorRun, .encodeRun]) := by
      simp [process_with_ffmpeg, remsiProcessVideo, h1, h2, if_neg h']
    simp [process_video_free, hred]

/-- Witness for C8: a premium job whose model load raises records the
message verbatim; a free-tier encode failure records the fixed message. -/
theorem c8_failure_handling_witness :
    ((process_video_premium ⟨.pending, none, none⟩
        ⟨.error "model load failed", .ok (), .ok [], .ok (), .ok ()⟩).1.status =
      JobStatus.failed ∧
     (process_video_premium ⟨.pending, none, none⟩
        ⟨.error "model load failed", .ok (), .ok [], .ok (), .ok ()⟩).1.error_message =
      some "model load failed") ∧
    ((process_video_free ⟨.pending, none, none⟩
        ⟨some 30, some 30, .finished 0 [], .error "boom"⟩).1.status = JobStatus.failed ∧
     (process_video_free ⟨.pending, none, none⟩
        ⟨some 30, some 30, .finished 0 [], .error "boom"⟩).1.error_message =
      some remsiFailMessage) :=
  ⟨c8_failure_handling.1 ⟨.error "model load failed", .ok (), .ok [], .ok (), .ok ()⟩
      ⟨.pending, none, none⟩ "model load failed" rfl,
   c8_failure_handling.2.1 ⟨some 30, some 30, .finished 0 [], .error "boom"⟩
      ⟨.pending, none, none⟩ 30 "boom" (by norm_num [get_video_duration]) rfl rfl⟩

/-- C10 (implicit): when the duration probe raises,
`get_video_duration` returns 0.0, which passes the 60-second tier check
(`0 > 60` is false), so the job proceeds into the Remsi pipeline and the
detector is invoked instead of the job failing at the tier gate. -/
theorem c10_probe_failure_passes_gate (env : FreeEnv) (d : ℚ)
    (h1 : env.probeDuration = none) (h2 : env.remsiProbe = some d) :
    get_video_duration env.probeDuration = 0 ∧
    (process_with_ffmpeg env).1 ≠ Except.error tierMessage ∧
    Event.detectorRun ∈ (process_with_ffmpeg env).2 := by
  have hd : get_video_duration env.probeDuration = 0 := by
    rw [h1]
    rfl
  have h' : ¬ (get_video_duration env.probeDuration > 60) := by
    rw [hd]
    norm_num
  cases henc : env.encode with
  | ok u =>
    have hred : process_with_ffmpeg env =
        (.ok "processed_output", [.probeRun, .remsiProbeRun, .detectorRun, .encodeRun]) := by
      simp [process_with_ffmpeg, remsiProcessVideo, h2, henc, if_neg h']
    rw [hred]
    exact ⟨hd, by decide, by decide⟩
  | error m =>
    have hred : process_with_ffmpeg env =
        (.error remsiFailMessage, [.probeRun, .remsiProbeRun, .detectorRun, .encodeRun]) := by
      simp [process_with_ffmpeg, remsiProcessVideo, h2, henc, if_neg h']
    rw [hred]
    exact ⟨hd, by decide, by decide⟩

/-- Witness for C10 on a concrete environment with a failing probe. -/
theorem c10_probe_failure_passes_gate_witness :
    get_video_duration (FreeEnv.probeDuration ⟨none, some 30, .finished 0 [], .ok ()⟩) = 0 ∧
    (process_with_ffmpeg ⟨none, some 30, .finished 0 [], .ok ()⟩).1 ≠
      Except.error tierMessage ∧
    Event.detectorRun ∈ (process_with_ffmpeg ⟨none, some 30, .finished 0 [], .ok ()⟩).2 :=
  c10_probe_failure_passes_gate ⟨none, some 30, .finished 0 [], .ok ()⟩ 30 rfl rfl

end SilenceRemover
